import Mathlib

/-!
Shallow embedding of the cloudrun-poc control-plane service: the Go control
plane (src/controlplaneapi/main.go) and the Node file handler
(src/file_handler/index.js).  Definitions prefixed `go...` are translated
from the Go source, definitions prefixed `node...` from the Node source.
Paths are modelled at the level of '/'-separated segments (the deployment is
POSIX-only), file contents as byte lists, and process-facing effects (spawn,
kill, pid file) as explicit record fields.
-/

/-! ### String and path utilities -/

/-- The characters of the second list form an initial segment of the first. -/
def listHasPre : List Char → List Char → Bool
  | _, [] => true
  | [], _ :: _ => false
  | a :: as, b :: bs => a == b && listHasPre as bs

/-- `hasPrefixStr s p` holds when `p` is a prefix of `s`; this is Go's
`strings.HasPrefix(s, p)` and JavaScript's `s.startsWith(p)`. -/
def hasPrefixStr (s p : String) : Bool :=
  listHasPre s.toList p.toList

/-- Substring occurrence test on character lists. -/
def strContainsAux : List Char → List Char → Bool
  | [], needle => listHasPre [] needle
  | c :: rest, needle => listHasPre (c :: rest) needle || strContainsAux rest needle

/-- `strContains hay needle` holds when `needle` occurs inside `hay`. -/
def strContains (hay needle : String) : Bool :=
  strContainsAux hay.toList needle.toList

/-- Split a list of characters at every '/' (POSIX separator). -/
def splitOnSlashCh : List Char → List (List Char)
  | [] => [[]]
  | c :: rest =>
    let r := splitOnSlashCh rest
    if c == '/' then [] :: r
    else
      match r with
      | s :: ss => (c :: s) :: ss
      | [] => [[c]]

/-- Split a path string into its '/'-separated segments. -/
def splitPath (s : String) : List String :=
  (splitOnSlashCh s.toList).map (fun cs => ⟨cs⟩)

/-- Join strings with a separator; Go's `strings.Join(l, sep)`. -/
def joinWith (sep : String) : List String → String
  | [] => ""
  | [s] => s
  | s :: rest => s ++ sep ++ joinWith sep rest

/-- Lexical cleaning of the segments of an absolute path: empty and "."
segments vanish, ".." pops the previous segment (and is dropped at the
root), as in Go's `filepath.Clean` and Node's `path.resolve` for absolute
inputs. -/
def cleanSegs (segs : List String) : List String :=
  segs.foldl
    (fun acc seg =>
      if seg = "" ∨ seg = "." then acc
      else if seg = ".." then acc.dropLast
      else acc ++ [seg])
    []

/-- Render cleaned segments as an absolute path string. -/
def renderAbs (segs : List String) : String :=
  "/" ++ joinWith "/" segs

/-- Lexical cleaning of a relative path's segments: leading ".." segments
are kept, as in Go's `filepath.Clean` on relative inputs. -/
def cleanRelSegs (segs : List String) : List String :=
  segs.foldl
    (fun acc seg =>
      if seg = "" ∨ seg = "." then acc
      else if seg = ".." then
        match acc.getLast? with
        | some t => if t = ".." then acc ++ [".."] else acc.dropLast
        | none => [".."]
      else acc ++ [seg])
    []

/-- Go's `filepath.Clean` applied to an arbitrary path string. -/
def goCleanRel (p : String) : String :=
  if hasPrefixStr p "/" then renderAbs (cleanSegs (splitPath p))
  else
    let segs := cleanRelSegs (splitPath p)
    if segs.isEmpty then "." else joinWith "/" segs

/-- The fixed application root; flag default in main.go, `APP_DIR` default in
index.js. -/
def appDir : String := "/app/applet"

/-! ### Path Guard (C1) -/

/-- Go `resolveWithinAppDir` (main.go lines 784-792): joins the request path
under `appDir`, canonicalizes, and accepts when the result has the absolute
root as a *string* prefix (no separator is appended). -/
def goResolveWithinAppDir (p : String) : Option String :=
  let absAppDir := renderAbs (cleanSegs (splitPath appDir))
  let absCleanPath := renderAbs (cleanSegs (splitPath (appDir ++ "/" ++ p)))
  if hasPrefixStr absCleanPath absAppDir then some absCleanPath else none

/-- Node `resolveWithinAppDir` (index.js lines 168-177): absolute inputs are
taken as-is, relative inputs are resolved against `APP_DIR`; the normalized
result must start with the resolved root *followed by the path separator*. -/
def nodeResolveWithinAppDir (requestPath : String) : Option String :=
  let resolved :=
    if hasPrefixStr requestPath "/" then requestPath
    else appDir ++ "/" ++ requestPath
  let normalizedAppDir := renderAbs (cleanSegs (splitPath appDir)) ++ "/"
  let normalized := renderAbs (cleanSegs (splitPath resolved))
  if hasPrefixStr normalized normalizedAppDir then some normalized else none

/-- Spec-side notion (spec 4.1, claim C1), clearly separated from the two
implementations: a canonical absolute path lies inside the fixed root when it
is the root itself or a proper descendant of it. -/
def specCanonicalInsideRoot (q : String) : Bool :=
  decide (q = appDir) || hasPrefixStr q (appDir ++ "/")

/-- Claim C1: every externally supplied path whose canonical resolution lies
outside the application root must be rejected by the Path Guard.  The Go
implementation violates this: `../applet-evil/x` canonicalizes to
`/app/applet-evil/x`, which lies outside the root `/app/applet`, yet the Go
guard accepts it because `/app/applet` is a string prefix of
`/app/applet-evil/x` (the prefix check omits the trailing separator).  The
Node implementation rejects the same input. -/
theorem c1_path_guard_go_accepts_escape :
    goResolveWithinAppDir "../applet-evil/x" = some "/app/applet-evil/x"
    ∧ specCanonicalInsideRoot "/app/applet-evil/x" = false
    ∧ nodeResolveWithinAppDir "../applet-evil/x" = none := by
  exact ⟨rfl, rfl, rfl⟩

/-! ### Manifest (package.json) and Command Resolver (C5) -/

/-- The fields of `package.json` read by the two resolvers.  Go's
`PackageJSON` unmarshals only `scripts` and `dependencies`; the Node resolver
additionally reads `devDependencies`. -/
structure PackageJSON where
  scripts : List (String × String)
  dependencies : List (String × String)
  devDependencies : List (String × String)
deriving DecidableEq, Repr

/-- Go map presence test `_, ok := m[k]` on a JSON object. -/
def hasKey (l : List (String × String)) (k : String) : Bool :=
  l.any (fun kv => decide (kv.1 = k))

/-- JSON object lookup (first binding wins, mirroring spread-merge order as
arranged by the caller). -/
def getKey (l : List (String × String)) (k : String) : Option String :=
  (l.find? (fun kv => decide (kv.1 = k))).map (fun kv => kv.2)

/-- JavaScript truthiness of `obj[k]`: the key is present with a non-empty
string value. -/
def truthyKey (l : List (String × String)) (k : String) : Bool :=
  decide (((getKey l k).getD "") ≠ "")

/-- The two failure modes of Go `resolveDevCommand`: `package.json` missing or
unreadable, versus no recognized script/dependency (the spec's
UnresolvableError). -/
inductive GoResolveErr
  | cannotRead
  | unresolvable
deriving DecidableEq, Repr

/-- Go `resolveDevCommand` (main.go lines 727-753): scripts first ("dev" then
"start"), then framework detection from `dependencies` (next, vite,
@angular/cli), else an error. -/
def goResolveDevCommand (pkg : Option PackageJSON) (port : Nat) :
    Except GoResolveErr (String × List String) :=
  match pkg with
  | none => .error .cannotRead
  | some pkg =>
    if hasKey pkg.scripts "dev" then .ok ("npm", ["run", "dev"])
    else if hasKey pkg.scripts "start" then .ok ("npm", ["start"])
    else if hasKey pkg.dependencies "next" then
      .ok ("node", ["node_modules/next/dist/bin/next", "dev", "-p", toString port])
    else if hasKey pkg.dependencies "vite" then
      .ok ("node", ["node_modules/vite/bin/vite.js", "--port", toString port])
    else if hasKey pkg.dependencies "@angular/cli" then
      .ok ("npx", ["ng", "serve", "--port", toString port])
    else .error .unresolvable

/-- The proto framework enum of index.js (`frameworkFromInput` output). -/
inductive Framework
  | unspecified
  | nextjs
  | vite
deriving DecidableEq, Repr

/-- Occurrence of the regex `/(^|\s)vite(\s|$)/`: "vite" preceded by start or
whitespace and followed by whitespace or end. -/
def viteAt : List Char → Bool
  | 'v' :: 'i' :: 't' :: 'e' :: rest =>
    match rest with
    | [] => true
    | c :: _ => c.isWhitespace
  | _ => false

/-- Search for a whitespace-preceded occurrence of "vite". -/
def viteSearch : List Char → Bool
  | [] => false
  | c :: rest => (c.isWhitespace && viteAt rest) || viteSearch rest

/-- `/(^|\s)vite(\s|$)/.test s`. -/
def viteWordIn (s : String) : Bool :=
  viteAt s.toList || viteSearch s.toList

/-- After "ng": at least one whitespace character, then "serve". -/
def wsStarThenServe : List Char → Bool
  | [] => false
  | c :: rest =>
    if c.isWhitespace then wsStarThenServe rest
    else
      match c :: rest with
      | 's' :: 'e' :: 'r' :: 'v' :: 'e' :: _ => true
      | _ => false

/-- The list starts with "ng", one-or-more whitespace, then "serve". -/
def ngServeAt : List Char → Bool
  | 'n' :: 'g' :: c :: rest => c.isWhitespace && wsStarThenServe (c :: rest)
  | _ => false

/-- Occurrence search for the regex `/ng\s+serve/`. -/
def ngServeSearch : List Char → Bool
  | [] => false
  | c :: rest => ngServeAt (c :: rest) || ngServeSearch rest

/-- `/ng\s+serve/.test s`. -/
def ngServeIn (s : String) : Bool :=
  ngServeSearch s.toList

/-- Node `resolveDevCommand` (index.js lines 327-361).  `pkg = none` models
`readPackageJson` returning null (replaced by `{}`); `hasAngularJson` and
`hasViteConfigFile` model the filesystem probes for `angular.json` and the
`vite.config.*` candidates.  The dependency merge `{...deps, ...devDeps}`
lets `devDependencies` win, hence that list is consulted first. -/
def nodeResolveDevCommand (pkg0 : Option PackageJSON) (port : Nat)
    (desired : Framework) (hasAngularJson hasViteConfigFile : Bool) :
    String × List String :=
  let pkg := pkg0.getD ⟨[], [], []⟩
  let deps := pkg.devDependencies ++ pkg.dependencies
  if desired = .nextjs ∨ truthyKey deps "next" then
    ("node", ["node_modules/next/dist/bin/next", "dev", "-H", "0.0.0.0",
              "-p", toString port])
  else
    let devScript := (getKey pkg.scripts "dev").getD ""
    let usesVite := hasViteConfigFile || truthyKey deps "vite" || viteWordIn devScript
    let usesAngularCli := hasAngularJson &&
      (truthyKey deps "@angular/cli" || truthyKey deps "@angular/build" ||
       ngServeIn devScript)
    if usesAngularCli then
      ("node", ["node_modules/@angular/cli/bin/ng.js", "serve", "--host",
                "0.0.0.0", "--port", toString port])
    else if desired = .vite ∨ usesVite then
      ("node", ["node_modules/vite/bin/vite.js", "--host", "0.0.0.0",
                "--port", toString port])
    else if devScript ≠ "" then ("npm", ["run", "dev"])
    else ("npm", ["start"])

/-! ### Process Supervisor: start handlers (C2, C3, C4, C9) -/

/-- Environment of one Go `/dev/start` request: the pid-file read result
(`none` models a read/parse error, i.e. no record), the OS liveness probe
(`isProcessAlive`, a signal-0 probe), the manifest used by the resolver, and
the outcomes the OS would give to spawn and pid-file persistence.
`portBound` records the environment fact that the target port is bound by a
foreign process; the Go handler performs no port probe, so the field is
consulted nowhere in the Go model. -/
structure GoEnv where
  pidFile : Option Nat
  alive : Nat → Bool
  pkg : Option PackageJSON
  port : Nat
  spawnFails : Bool
  spawnPid : Nat
  pidWriteFails : Bool
  portBound : Bool

/-- `isAlive := err == nil && isProcessAlive(pid)` in `handleDevOperation`. -/
def goIsAlive (env : GoEnv) : Bool :=
  match env.pidFile with
  | some p => env.alive p
  | none => false

/-- Observable outcome of a Go start request. -/
inductive GoStartResult
  | alreadyRunning    -- 409 Conflict, "Already running"
  | resolveFailed     -- 500, could not resolve dev command
  | spawnFailed       -- 500, failed to start process
  | pidWriteFailed    -- 500, failed to write pid file
  | started (pid : Nat)  -- 202 Accepted
deriving DecidableEq, Repr

/-- Effects of a Go start request: the response, which child (if any) was
spawned, which child (if any) was killed before returning, and the pid file
contents afterwards. -/
structure GoStartOut where
  result : GoStartResult
  spawned : Option Nat
  killed : Option Nat
  pidFileAfter : Option Nat
deriving DecidableEq, Repr

/-- Go `startDevServer` (main.go lines 607-651): resolve the command, spawn,
persist the pid; when persisting fails the just-spawned child is killed and
the error surfaced. -/
def goStartDevServer (env : GoEnv) : GoStartOut :=
  match goResolveDevCommand env.pkg env.port with
  | .error _ => ⟨.resolveFailed, none, none, env.pidFile⟩
  | .ok _ =>
    if env.spawnFails then ⟨.spawnFailed, none, none, env.pidFile⟩
    else if env.pidWriteFails then
      ⟨.pidWriteFailed, some env.spawnPid, some env.spawnPid, env.pidFile⟩
    else ⟨.started env.spawnPid, some env.spawnPid, none, some env.spawnPid⟩

/-- Go `handleDevOperation` with operation "start" (main.go lines 528-581):
under the dev-operation mutex, a live persisted pid yields 409 Conflict and
nothing else happens; otherwise `startDevServer` runs. -/
def goHandleStart (env : GoEnv) : GoStartOut :=
  if goIsAlive env then ⟨.alreadyRunning, none, none, env.pidFile⟩
  else goStartDevServer env

/-- Environment of one Node `POST /dev/start` request (index.js lines
444-483). -/
structure NodeEnv where
  pidFile : Option Nat
  alive : Nat → Bool
  devOpInProgress : Bool
  portBound : Bool
  spawnFails : Bool
  spawnPid : Nat
  pidWriteFails : Bool

/-- `existingPid && isProcessAlive(existingPid)`: JavaScript truthiness makes
pid 0 (and a missing pid file) fail the check. -/
def nodeRunningCheck (env : NodeEnv) : Bool :=
  match env.pidFile with
  | some p => !(p == 0) && env.alive p
  | none => false

/-- Observable outcome of a Node start request. -/
inductive NodeStartResult
  | alreadyRunning (pid : Nat)  -- 409, "Already running"
  | opInProgress                -- 409, "Another dev operation is in progress"
  | portInUse                   -- 409, "Port ... is already in use"
  | startFailed                 -- 500
  | started (pid : Nat)         -- 202
deriving DecidableEq, Repr

/-- The Node start sequence after the already-running check: reject while
another dev operation is in progress, reject when the port probe finds the
port bound, otherwise spawn; the pid-file write is wrapped in an empty
`catch`, so a persistence failure is swallowed and 202 is still returned. -/
def nodeStartRest (env : NodeEnv) : NodeStartResult × Option Nat × Option Nat :=
  if env.devOpInProgress then (.opInProgress, none, env.pidFile)
  else if env.portBound then (.portInUse, none, env.pidFile)
  else if env.spawnFails then (.startFailed, none, env.pidFile)
  else (.started env.spawnPid, some env.spawnPid,
        if env.pidWriteFails then env.pidFile else some env.spawnPid)

/-- Node `POST /dev/start` (index.js lines 444-483); result components are
the response, the spawned child (if any), and the pid file afterwards.  The
Node handler never kills a spawned child before responding. -/
def nodeDevStart (env : NodeEnv) : NodeStartResult × Option Nat × Option Nat :=
  if nodeRunningCheck env then
    (.alreadyRunning (env.pidFile.getD 0), none, env.pidFile)
  else nodeStartRest env

/-! ### The single supervised slot (C2)

An abstract trace system for the supervised-process record: `record` is the
persisted pid, `livePids` the supervised children currently alive.  `start`
is enabled exactly when the recorded pid is not alive (the handler's guard);
it spawns a fresh pid.  `stop` signals the recorded process and clears the
record; `exitStep` is a child dying on its own. -/

structure SupState where
  record : Option Nat
  livePids : List Nat

/-- One supervisor transition. -/
inductive SupStep : SupState → SupState → Prop
  | start (s : SupState) (q : Nat)
      (hguard : ∀ p, s.record = some p → p ∉ s.livePids)
      (hfresh : q ∉ s.livePids) :
      SupStep s ⟨some q, q :: s.livePids⟩
  | stop (s : SupState) (p : Nat) (hrec : s.record = some p) :
      SupStep s ⟨none, s.livePids.erase p⟩
  | exitStep (s : SupState) (p : Nat) :
      SupStep s ⟨s.record, s.livePids.erase p⟩

/-- Invariant: either no supervised child is alive, or exactly the recorded
one is. -/
def SupInv (s : SupState) : Prop :=
  s.livePids = [] ∨ ∃ p, s.record = some p ∧ s.livePids = [p]

/-- A supervisor step preserves the single-slot invariant. -/
lemma supInv_step {s s' : SupState} (hinv : SupInv s) (hstep : SupStep s s') :
    SupInv s' := by
  cases hstep with
  | start q hguard hfresh =>
    rcases hinv with hnil | ⟨p, hrec, hlive⟩
    · right; exact ⟨q, rfl, by rw [hnil]⟩
    · exact absurd (by rw [hlive]; exact List.mem_singleton_self p) (hguard p hrec)
  | stop p hrec =>
    rcases hinv with hnil | ⟨p0, hrec0, hlive⟩
    · left; rw [hnil]; rfl
    · left
      have hpp : p = p0 := by
        rw [hrec] at hrec0; exact Option.some.inj hrec0
      rw [hlive, hpp]
      simp [List.erase_cons]
  | exitStep p =>
    rcases hinv with hnil | ⟨p0, hrec0, hlive⟩
    · left; rw [hnil]; rfl
    · by_cases h : p0 = p
      · left; rw [hlive, h]; simp [List.erase_cons]
      · right; exact ⟨p0, hrec0, by rw [hlive]; simp [List.erase_cons, h]⟩

/-- The single-slot invariant bounds the number of live supervised
children by one. -/
lemma supInv_length {s : SupState} (hinv : SupInv s) : s.livePids.length ≤ 1 := by
  rcases hinv with hnil | ⟨p, _, hlive⟩
  · rw [hnil]; exact Nat.zero_le 1
  · rw [hlive]; exact Nat.le_refl 1

/-- Claim C2: whenever the persisted pid denotes a live process, a start
request (in both implementations) returns the 409 "Already running" conflict,
spawns nothing, and leaves the record unchanged; and every transition of the
supervised slot preserves the at-most-one-live-child invariant. -/
theorem c2_start_conflict_single_live
    (genv : GoEnv) (p : Nat) (hg1 : genv.pidFile = some p) (hg2 : genv.alive p = true)
    (nenv : NodeEnv) (q : Nat) (hn1 : nenv.pidFile = some q) (hn0 : q ≠ 0)
    (hn2 : nenv.alive q = true)
    (s s' : SupState) (hinv : SupInv s) (hstep : SupStep s s') :
    goHandleStart genv = ⟨.alreadyRunning, none, none, genv.pidFile⟩
    ∧ nodeDevStart nenv = (.alreadyRunning q, none, nenv.pidFile)
    ∧ SupInv s' ∧ s'.livePids.length ≤ 1 := by
  refine ⟨?_, ?_, supInv_step hinv hstep, supInv_length (supInv_step hinv hstep)⟩
  · simp [goHandleStart, goIsAlive, hg1, hg2]
  · simp [nodeDevStart, nodeRunningCheck, hn1, hn2, hn0]

/-- Concrete Go environment: pid 7 recorded and alive. -/
def genvRunning : GoEnv :=
  { pidFile := some 7, alive := fun n => n == 7,
    pkg := some ⟨[("dev", "next dev")], [], []⟩, port := 3000,
    spawnFails := false, spawnPid := 42, pidWriteFails := false,
    portBound := false }

/-- Concrete Node environment: pid 7 recorded and alive. -/
def nenvRunning : NodeEnv :=
  { pidFile := some 7, alive := fun n => n == 7, devOpInProgress := false,
    portBound := false, spawnFails := false, spawnPid := 42,
    pidWriteFails := false }

theorem c2_start_conflict_single_live_witness :
    goHandleStart genvRunning = ⟨.alreadyRunning, none, none, some 7⟩
    ∧ nodeDevStart nenvRunning = (.alreadyRunning 7, none, some 7)
    ∧ SupInv ⟨some 5, [5]⟩ ∧ ([5] : List Nat).length ≤ 1 :=
  c2_start_conflict_single_live genvRunning 7 rfl rfl nenvRunning 7 rfl
    (by decide) rfl ⟨none, []⟩ ⟨some 5, [5]⟩ (Or.inl rfl)
    (SupStep.start ⟨none, []⟩ 5 (fun p hp => nomatch hp) (by simp))

/-! ### Port probe at start (C3) -/

/-- Claim C3 (amended to the Node implementation): when no live recorded pid
blocks the request and no other dev operation is in progress, a start against
a port already bound by a foreign process returns the 409 port-in-use
conflict and spawns no child. -/
theorem c3_node_port_in_use_conflict (env : NodeEnv)
    (h1 : nodeRunningCheck env = false) (h2 : env.devOpInProgress = false)
    (h3 : env.portBound = true) :
    nodeDevStart env = (.portInUse, none, env.pidFile) := by
  simp [nodeDevStart, nodeStartRest, h1, h2, h3]

/-- Concrete Node environment with the target port bound by a foreign
process and no recorded server. -/
def nenvPortBusy : NodeEnv :=
  { pidFile := none, alive := fun _ => false, devOpInProgress := false,
    portBound := true, spawnFails := false, spawnPid := 42,
    pidWriteFails := false }

theorem c3_node_port_in_use_conflict_witness :
    nodeDevStart nenvPortBusy = (.portInUse, none, none) :=
  c3_node_port_in_use_conflict nenvPortBusy rfl rfl rfl

/-- Concrete Go environment: no recorded server, resolvable manifest, and the
target port bound by a foreign process. -/
def genvPortBusy : GoEnv :=
  { pidFile := none, alive := fun _ => false,
    pkg := some ⟨[("dev", "next dev")], [], []⟩, port := 3000,
    spawnFails := false, spawnPid := 42, pidWriteFails := false,
    portBound := true }

/-- Counterexample to claim C3 as stated over the whole program: the Go
control plane performs no port probe, so a start issued while the target
port is bound by a foreign process still spawns a child and answers 202,
instead of failing with a port-in-use conflict. -/
theorem c3_go_start_ignores_port_probe :
    genvPortBusy.portBound = true
    ∧ goHandleStart genvPortBusy = ⟨.started 42, some 42, none, some 42⟩ := by
  exact ⟨rfl, rfl⟩

/-! ### Pid persistence failure at start (C4) -/

/-- Claim C4 (amended to the Go implementation): when the child spawned but
persisting its pid fails, the Go start path kills the just-spawned child,
reports the persistence error, and leaves the pid file as it was; no pid is
reported as started. -/
theorem c4_go_pid_persist_failure_kills_child (env : GoEnv)
    (hdead : goIsAlive env = false)
    (c : String × List String)
    (hres : goResolveDevCommand env.pkg env.port = .ok c)
    (hspawn : env.spawnFails = false) (hwrite : env.pidWriteFails = true) :
    goHandleStart env =
      ⟨.pidWriteFailed, some env.spawnPid, some env.spawnPid, env.pidFile⟩ := by
  simp [goHandleStart, goStartDevServer, hdead, hres, hspawn, hwrite]

/-- Concrete Go environment in which the pid-file write fails. -/
def genvPidWriteFail : GoEnv :=
  { pidFile := none, alive := fun _ => false,
    pkg := some ⟨[("dev", "next dev")], [], []⟩, port := 3000,
    spawnFails := false, spawnPid := 42, pidWriteFails := true,
    portBound := false }

theorem c4_go_pid_persist_failure_kills_child_witness :
    goHandleStart genvPidWriteFail = ⟨.pidWriteFailed, some 42, some 42, none⟩ :=
  c4_go_pid_persist_failure_kills_child genvPidWriteFail rfl
    ("npm", ["run", "dev"]) rfl rfl rfl

/-- Concrete Node environment in which the pid-file write fails. -/
def nenvPidWriteFail : NodeEnv :=
  { pidFile := none, alive := fun _ => false, devOpInProgress := false,
    portBound := false, spawnFails := false, spawnPid := 42,
    pidWriteFails := true }

/-- Counterexample to claim C4 as stated over the whole program: the Node
start handler wraps the pid-file write in an empty catch, so when persistence
fails it still answers 202 reporting pid 42 as started, kills nothing, and
leaves no record of the running child (the pid file keeps its old, absent,
contents). -/
theorem c4_node_ignores_pid_persist_failure :
    nenvPidWriteFail.pidWriteFails = true
    ∧ nodeDevStart nenvPidWriteFail = (.started 42, some 42, none) := by
  exact ⟨rfl, rfl⟩

/-! ### Command Resolver priority (C5) -/

/-- Claim C5 (amended to the Go implementation): the Go resolver follows the
deterministic priority dev-script, then start-script, then framework defaults
from declared dependencies (next, vite, @angular/cli), and fails with the
unresolvable error when none is found (and with a distinct read error when
the manifest is unreadable); the Node resolver, by contrast, never fails —
with nothing recognized it falls back to `npm start`. -/
theorem c5_go_resolver_priority (port : Nat)
    (p1 : PackageJSON) (h1 : hasKey p1.scripts "dev" = true)
    (p2 : PackageJSON) (h2a : hasKey p2.scripts "dev" = false)
    (h2b : hasKey p2.scripts "start" = true)
    (p3 : PackageJSON) (h3a : hasKey p3.scripts "dev" = false)
    (h3b : hasKey p3.scripts "start" = false)
    (h3c : hasKey p3.dependencies "next" = true)
    (p4 : PackageJSON) (h4a : hasKey p4.scripts "dev" = false)
    (h4b : hasKey p4.scripts "start" = false)
    (h4c : hasKey p4.dependencies "next" = false)
    (h4d : hasKey p4.dependencies "vite" = true)
    (p5 : PackageJSON) (h5a : hasKey p5.scripts "dev" = false)
    (h5b : hasKey p5.scripts "start" = false)
    (h5c : hasKey p5.dependencies "next" = false)
    (h5d : hasKey p5.dependencies "vite" = false)
    (h5e : hasKey p5.dependencies "@angular/cli" = true)
    (p6 : PackageJSON) (h6a : hasKey p6.scripts "dev" = false)
    (h6b : hasKey p6.scripts "start" = false)
    (h6c : hasKey p6.dependencies "next" = false)
    (h6d : hasKey p6.dependencies "vite" = false)
    (h6e : hasKey p6.dependencies "@angular/cli" = false)
    (p7 : PackageJSON)
    (h7a : truthyKey (p7.devDependencies ++ p7.dependencies) "next" = false)
    (h7b : truthyKey (p7.devDependencies ++ p7.dependencies) "vite" = false)
    (h7c : getKey p7.scripts "dev" = none) :
    goResolveDevCommand (some p1) port = .ok ("npm", ["run", "dev"])
    ∧ goResolveDevCommand (some p2) port = .ok ("npm", ["start"])
    ∧ goResolveDevCommand (some p3) port =
        .ok ("node", ["node_modules/next/dist/bin/next", "dev", "-p", toString port])
    ∧ goResolveDevCommand (some p4) port =
        .ok ("node", ["node_modules/vite/bin/vite.js", "--port", toString port])
    ∧ goResolveDevCommand (some p5) port =
        .ok ("npx", ["ng", "serve", "--port", toString port])
    ∧ goResolveDevCommand (some p6) port = .error .unresolvable
    ∧ goResolveDevCommand none port = .error .cannotRead
    ∧ nodeResolveDevCommand (some p7) port .unspecified false false
        = ("npm", ["start"]) := by
  refine ⟨?_, ?_, ?_, ?_, ?_, ?_, rfl, ?_⟩
  · simp [goResolveDevCommand, h1]
  · simp [goResolveDevCommand, h2a, h2b]
  · simp [goResolveDevCommand, h3a, h3b, h3c]
  · simp [goResolveDevCommand, h4a, h4b, h4c, h4d]
  · simp [goResolveDevCommand, h5a, h5b, h5c, h5d, h5e]
  · simp [goResolveDevCommand, h6a, h6b, h6c, h6d, h6e]
  · simp [nodeResolveDevCommand, h7a, h7b, h7c, viteWordIn, viteAt, viteSearch]

/-- Example manifests exercising each branch of the resolvers. -/
def pkgWithDev : PackageJSON := ⟨[("dev", "next dev")], [], []⟩
def pkgWithStart : PackageJSON := ⟨[("start", "node server.js")], [], []⟩
def pkgNextDep : PackageJSON := ⟨[], [("next", "14.0.0")], []⟩
def pkgViteDep : PackageJSON := ⟨[], [("vite", "5.0.0")], []⟩
def pkgNgDep : PackageJSON := ⟨[], [("@angular/cli", "17.0.0")], []⟩
def pkgEmpty : PackageJSON := ⟨[], [], []⟩

theorem c5_go_resolver_priority_witness :
    goResolveDevCommand (some pkgWithDev) 3000 = .ok ("npm", ["run", "dev"])
    ∧ goResolveDevCommand (some pkgWithStart) 3000 = .ok ("npm", ["start"])
    ∧ goResolveDevCommand (some pkgNextDep) 3000 =
        .ok ("node", ["node_modules/next/dist/bin/next", "dev", "-p", toString 3000])
    ∧ goResolveDevCommand (some pkgViteDep) 3000 =
        .ok ("node", ["node_modules/vite/bin/vite.js", "--port", toString 3000])
    ∧ goResolveDevCommand (some pkgNgDep) 3000 =
        .ok ("npx", ["ng", "serve", "--port", toString 3000])
    ∧ goResolveDevCommand (some pkgEmpty) 3000 = .error .unresolvable
    ∧ goResolveDevCommand none 3000 = .error .cannotRead
    ∧ nodeResolveDevCommand (some pkgEmpty) 3000 .unspecified false false
        = ("npm", ["start"]) :=
  c5_go_resolver_priority 3000 pkgWithDev rfl pkgWithStart rfl rfl
    pkgNextDep rfl rfl rfl pkgViteDep rfl rfl rfl rfl
    pkgNgDep rfl rfl rfl rfl rfl pkgEmpty rfl rfl rfl rfl rfl
    pkgEmpty rfl rfl rfl

/-- A manifest with both an explicit "dev" script and a next dependency. -/
def pkgDevAndNext : PackageJSON := ⟨[("dev", "foo")], [("next", "14.0.0")], []⟩

/-- Counterexample to claim C5 as stated over the whole program: the Node
resolver checks the Next.js dependency *before* any script, so on a manifest
that has a "dev" run-script it still returns the next binary rather than the
dev script; and on a manifest with no script and no recognized dependency it
returns `npm start` instead of failing with an unresolvable error. -/
theorem c5_node_resolver_breaks_priority :
    hasKey pkgDevAndNext.scripts "dev" = true
    ∧ nodeResolveDevCommand (some pkgDevAndNext) 3000 .unspecified false false
        = ("node", ["node_modules/next/dist/bin/next", "dev", "-H", "0.0.0.0",
                    "-p", "3000"])
    ∧ nodeResolveDevCommand (some pkgDevAndNext) 3000 .unspecified false false
        ≠ ("npm", ["run", "dev"])
    ∧ hasKey pkgEmpty.scripts "dev" = false
    ∧ hasKey pkgEmpty.scripts "start" = false
    ∧ nodeResolveDevCommand (some pkgEmpty) 3000 .unspecified false false
        = ("npm", ["start"]) := by
  refine ⟨rfl, by decide, by decide, rfl, rfl, by decide⟩

/-! ### Base64 decoding (C10) -/

/-- Value of a character in the standard base64 alphabet. -/
def b64Val (c : Char) : Option Nat :=
  if 'A' ≤ c ∧ c ≤ 'Z' then some (c.toNat - 65)
  else if 'a' ≤ c ∧ c ≤ 'z' then some (c.toNat - 97 + 26)
  else if '0' ≤ c ∧ c ≤ '9' then some (c.toNat - 48 + 52)
  else if c = '+' then some 62
  else if c = '/' then some 63
  else none

/-- Reassemble bytes from a list of 6-bit values; a trailing group of two or
three values yields one or two bytes, a lone trailing value is dropped (the
lenient JavaScript behaviour). -/
def b64Bytes : List Nat → List Nat
  | a :: b :: c :: d :: rest =>
    (a * 4 + b / 16) :: ((b % 16) * 16 + c / 4) :: ((c % 4) * 64 + d) :: b64Bytes rest
  | [a, b] => [a * 4 + b / 16]
  | [a, b, c] => [a * 4 + b / 16, (b % 16) * 16 + c / 4]
  | _ => []

/-- Node's `Buffer.from(s, 'base64')`: total and lenient — every character
outside the base64 alphabet (padding included) is skipped, and whatever
remains is decoded. -/
def jsBase64Decode (s : String) : List Nat :=
  b64Bytes (s.toList.filterMap b64Val)

/-- Go's decoder ignores '\r' and '\n' before strict decoding. -/
def goStripNewlines (s : String) : List Char :=
  s.toList.filter (fun c => !(c == '\r' || c == '\n'))

/-- Strict four-character-block decoding of Go's
`base64.StdEncoding.DecodeString`: the (newline-stripped) input length must
be a multiple of four, all characters must be from the alphabet, and '='
padding may only close the final block. -/
def goB64Blocks : List Char → Option (List Nat)
  | [] => some []
  | c1 :: c2 :: c3 :: c4 :: rest =>
    match b64Val c1, b64Val c2 with
    | some a, some b =>
      if c3 = '=' then
        if c4 = '=' ∧ rest = [] then some [a * 4 + b / 16] else none
      else
        match b64Val c3 with
        | some c =>
          if c4 = '=' then
            if rest = [] then some [a * 4 + b / 16, (b % 16) * 16 + c / 4]
            else none
          else
            match b64Val c4 with
            | some d =>
              (goB64Blocks rest).map
                (fun tail => (a * 4 + b / 16) :: ((b % 16) * 16 + c / 4) ::
                  ((c % 4) * 64 + d) :: tail)
            | none => none
        | none => none
    | _, _ => none
  | _ => none

/-- Go `base64.StdEncoding.DecodeString`; `none` is the decode error. -/
def goBase64Decode (s : String) : Option (List Nat) :=
  goB64Blocks (goStripNewlines s)

/-! ### File writes and deletes (C6, C10) -/

/-- Go `writeFileBase64` (main.go lines 794-807) up to its effect: resolve
through the Path Guard, strictly decode, and produce the destination and the
bytes to write (the filesystem write itself is applied by the sync model). -/
def goWriteFileBase64 (p b64 : String) : Except String (String × List Nat) :=
  match goResolveWithinAppDir p with
  | none => .error ("path traversal attempt detected: " ++ p)
  | some dest =>
    match goBase64Decode b64 with
    | none => .error ("invalid base64 content for " ++ p)
    | some data => .ok (dest, data)

/-- Go `deletePath` (main.go lines 809-815): resolve, then remove
recursively. -/
def goDeletePath (p : String) : Except String String :=
  match goResolveWithinAppDir p with
  | none => .error ("path traversal attempt detected: " ++ p)
  | some dest => .ok dest

/-- Node `writeFileBase64` (index.js lines 179-185): resolve through the Node
Path Guard; the payload (missing payload treated as the empty string) is
decoded leniently and never causes a failure.  The error string is
`String(error)` of the thrown `Error`. -/
def nodeWriteFileBase64 (targetPath : String) (base64Content : Option String) :
    Except String (String × List Nat) :=
  match nodeResolveWithinAppDir targetPath with
  | none => .error ("Error: Path outside of APP_DIR is not permitted: " ++ targetPath)
  | some filePath => .ok (filePath, jsBase64Decode (base64Content.getD ""))

/-- Node `deletePath` (index.js lines 187-192): resolve (which may throw),
then `fs.rm` with `force`, whose own failures are swallowed. -/
def nodeDeletePath (targetPath : String) : Except String String :=
  match nodeResolveWithinAppDir targetPath with
  | none => .error ("Error: Path outside of APP_DIR is not permitted: " ++ targetPath)
  | some filePath => .ok filePath

/-- Claim C10: in the Node implementation a write entry whose path resolves
inside the root succeeds regardless of the payload: the payload is decoded
leniently (invalid characters skipped, missing payload treated as empty) and
the bytes written, while the Go implementation rejects an invalid-base64
payload with a per-entry error. -/
theorem c10_node_lenient_base64 (p : String) (dest : String)
    (hres : nodeResolveWithinAppDir p = some dest) (b : Option String) :
    nodeWriteFileBase64 p b = .ok (dest, jsBase64Decode (b.getD ""))
    ∧ nodeWriteFileBase64 "ok.txt" (some "aGV%sbG8=")
        = .ok ("/app/applet/ok.txt", [104, 101, 108, 108, 111])
    ∧ nodeWriteFileBase64 "ok.txt" none = .ok ("/app/applet/ok.txt", [])
    ∧ goWriteFileBase64 "ok.txt" "aGV%sbG8="
        = .error "invalid base64 content for ok.txt" := by
  refine ⟨?_, rfl, rfl, rfl⟩
  simp [nodeWriteFileBase64, hres]

theorem c10_node_lenient_base64_witness :
    nodeWriteFileBase64 "a.txt" (some "!!!")
      = .ok ("/app/applet/a.txt", jsBase64Decode "!!!")
    ∧ nodeWriteFileBase64 "ok.txt" (some "aGV%sbG8=")
        = .ok ("/app/applet/ok.txt", [104, 101, 108, 108, 111])
    ∧ nodeWriteFileBase64 "ok.txt" none = .ok ("/app/applet/ok.txt", [])
    ∧ goWriteFileBase64 "ok.txt" "aGV%sbG8="
        = .error "invalid base64 content for ok.txt" :=
  c10_node_lenient_base64 "a.txt" "/app/applet/a.txt" rfl (some "!!!")

/-! ### Filesystem model for the Sync Handler (C6) -/

/-- The managed directory as a finite map from absolute paths to byte
contents. -/
abbrev FS := List (String × List Nat)

/-- Contents at a path. -/
def fsGet : FS → String → Option (List Nat)
  | [], _ => none
  | e :: rest, p => if e.1 = p then some e.2 else fsGet rest p

/-- `os.WriteFile` / `fs.writeFile`: replace the contents at `p`. -/
def fsSet (fs : FS) (p : String) (v : List Nat) : FS :=
  (p, v) :: fs.filter (fun e => !decide (e.1 = p))

/-- `os.RemoveAll` / recursive `fs.rm`: drop `p` and everything below it. -/
def fsDeleteAll (fs : FS) (p : String) : FS :=
  fs.filter (fun e => !(decide (e.1 = p) || hasPrefixStr e.1 (p ++ "/")))

lemma fsGet_fsSet_self (fs : FS) (p : String) (v : List Nat) :
    fsGet (fsSet fs p v) p = some v := by
  simp [fsGet, fsSet]

lemma fsGet_filter_ne {fs : FS} {p q : String} (h : q ≠ p) :
    fsGet (fs.filter (fun e => !decide (e.1 = p))) q = fsGet fs q := by
  have hpq : ¬ p = q := fun hc => h hc.symm
  induction fs with
  | nil => rfl
  | cons e rest ih =>
    by_cases hep : e.1 = p
    · have hq : ¬ e.1 = q := by rw [hep]; exact hpq
      simp [List.filter_cons, hep, fsGet, hq, hpq, ih]
    · simp [List.filter_cons, hep, fsGet, ih]

lemma fsGet_fsSet_ne (fs : FS) {p q : String} (v : List Nat) (h : q ≠ p) :
    fsGet (fsSet fs p v) q = fsGet fs q := by
  have hpq : ¬ p = q := fun hc => h hc.symm
  rw [fsSet, fsGet, if_neg hpq, fsGet_filter_ne h]

lemma fsGet_fsDeleteAll_ne (fs : FS) {p q : String}
    (h : (decide (q = p) || hasPrefixStr q (p ++ "/")) = false) :
    fsGet (fsDeleteAll fs p) q = fsGet fs q := by
  have hq1 : ¬ q = p := by intro hqp; rw [hqp] at h; simp at h
  have hq2 : hasPrefixStr q (p ++ "/") = false := by
    revert h; cases hasPrefixStr q (p ++ "/") <;> simp
  have hpq : ¬ p = q := fun hc => hq1 hc.symm
  induction fs with
  | nil => rfl
  | cons e rest ih =>
    have ih' : fsGet (List.filter
        (fun e => !decide (e.1 = p) && !hasPrefixStr e.1 (p ++ "/")) rest) q
        = fsGet rest q := by
      simpa [fsDeleteAll] using ih
    by_cases h1 : e.1 = p
    · have hq : ¬ e.1 = q := by rw [h1]; exact hpq
      simp [fsDeleteAll, List.filter_cons, h1, fsGet, hq, hpq, ih']
    · by_cases h2 : hasPrefixStr e.1 (p ++ "/") = false
      · simp [fsDeleteAll, List.filter_cons, h1, h2, fsGet, ih']
      · have h2t : hasPrefixStr e.1 (p ++ "/") = true := by
          revert h2; cases hasPrefixStr e.1 (p ++ "/") <;> simp
        have hq : ¬ e.1 = q := by
          intro heq; rw [heq, hq2] at h2t; exact Bool.false_ne_true h2t
        simp [fsDeleteAll, List.filter_cons, h1, h2t, fsGet, hq, ih']

/-! ### Sync Handler (C6) -/

/-- Effect of the Go sync write loop (syncHandler, main.go lines 300-312):
every entry that passes the Path Guard and decodes is written; failing
entries change nothing.  The source runs the entries concurrently on
disjoint targets; the model applies them in list order. -/
def goApplyWrites : List (String × String) → FS → FS
  | [], fs => fs
  | e :: rest, fs =>
    match goWriteFileBase64 e.1 e.2 with
    | .ok dv => goApplyWrites rest (fsSet fs dv.1 dv.2)
    | .error _ => goApplyWrites rest fs

/-- Resolved destinations of the entries that succeed. -/
def goWriteDests : List (String × String) → List String
  | [] => []
  | e :: rest =>
    match goWriteFileBase64 e.1 e.2 with
    | .ok dv => dv.1 :: goWriteDests rest
    | .error _ => goWriteDests rest

/-- Effect of the Go sync delete loop (main.go lines 314-322). -/
def goApplyDeletes : List String → FS → FS
  | [], fs => fs
  | q :: rest, fs =>
    match goDeletePath q with
    | .ok dd => goApplyDeletes rest (fsDeleteAll fs dd)
    | .error _ => goApplyDeletes rest fs

/-- Per-entry write failure messages, wrapped as in
`fmt.Errorf("failed to write %s: %w", p, err)`. -/
def goWriteErrList : List (String × String) → List String
  | [] => []
  | e :: rest =>
    match goWriteFileBase64 e.1 e.2 with
    | .ok _ => goWriteErrList rest
    | .error m => ("failed to write " ++ e.1 ++ ": " ++ m) :: goWriteErrList rest

/-- Per-entry delete failure messages. -/
def goDeleteErrList : List String → List String
  | [] => []
  | q :: rest =>
    match goDeletePath q with
    | .ok _ => goDeleteErrList rest
    | .error m => ("failed to delete " ++ q ++ ": " ++ m) :: goDeleteErrList rest

/-- All per-entry failures of one batch (the channel-collected `allErrors`;
the channel order is nondeterministic in the source, modelled here in batch
order). -/
def goSyncErrors (files : List (String × String)) (deleted : List String) :
    List String :=
  goWriteErrList files ++ goDeleteErrList deleted

/-- Final managed-directory contents after a Go sync batch. -/
def goSyncFs (files : List (String × String)) (deleted : List String)
    (fs : FS) : FS :=
  goApplyDeletes deleted (goApplyWrites files fs)

/-- JSON response of the Go sync handler. -/
structure GoSyncResponse where
  status : Nat
  success : Bool
  message : String
  error : Option String
deriving DecidableEq, Repr

/-- Go `syncHandler` response logic (main.go lines 284-375): if any per-entry
failure occurred, a single 500 carries all messages joined with "; "
(`httpError(w, strings.Join(allErrors, "; "), 500)`); otherwise, when
`package.json` was among the cleaned written paths, dependency
reconciliation runs (outcomes abstracted by `installOk`/`pruneOk`) and its
failures are reported the same way; otherwise 200. -/
def goSyncResponse (files : List (String × String)) (deleted : List String)
    (installOk pruneOk : Bool) : GoSyncResponse :=
  let packageJsonModified :=
    files.any (fun e => decide (goCleanRel e.1 = "package.json"))
  let allErrors := goSyncErrors files deleted
  if allErrors ≠ [] then
    { status := 500, success := false, message := "",
      error := some (joinWith "; " allErrors) }
  else if packageJsonModified then
    let postErrors :=
      if installOk then (if pruneOk then [] else ["npm prune failed"])
      else ["npm install failed"]
    if postErrors ≠ [] then
      { status := 500, success := false, message := "",
        error := some (joinWith "; " postErrors) }
    else
      { status := 200, success := true,
        message := "Files synced successfully. npm install completed successfully. npm prune completed successfully.",
        error := none }
  else
    { status := 200, success := true, message := "Files synced successfully",
      error := none }

/-- Go `syncHandler`: response together with the resulting directory
contents (applied entries are never rolled back). -/
def goSyncHandler (files : List (String × String)) (deleted : List String)
    (installOk pruneOk : Bool) (fs : FS) : GoSyncResponse × FS :=
  (goSyncResponse files deleted installOk pruneOk, goSyncFs files deleted fs)

lemma goApplyWrites_fsGet_notmem {files : List (String × String)} {dest : String}
    (hnm : dest ∉ goWriteDests files) (fs : FS) :
    fsGet (goApplyWrites files fs) dest = fsGet fs dest := by
  induction files generalizing fs with
  | nil => rfl
  | cons e rest ih =>
    cases hgo : goWriteFileBase64 e.1 e.2 with
    | ok dv =>
      have hd : goWriteDests (e :: rest) = dv.1 :: goWriteDests rest := by
        simp [goWriteDests, hgo]
      rw [hd] at hnm
      simp only [List.mem_cons, not_or] at hnm
      have h1 : dest ≠ dv.1 := hnm.1
      simp only [goApplyWrites, hgo]
      rw [ih hnm.2, fsGet_fsSet_ne _ _ h1]
    | error m =>
      have hd : goWriteDests (e :: rest) = goWriteDests rest := by
        simp [goWriteDests, hgo]
      rw [hd] at hnm
      simp only [goApplyWrites, hgo]
      exact ih hnm fs

lemma goApplyWrites_fsGet_mem {files : List (String × String)}
    {p b dest : String} {data : List Nat}
    (hnd : (goWriteDests files).Nodup)
    (hmem : (p, b) ∈ files) (hok : goWriteFileBase64 p b = .ok (dest, data))
    (fs : FS) :
    fsGet (goApplyWrites files fs) dest = some data := by
  induction files generalizing fs with
  | nil => cases hmem
  | cons e rest ih =>
    rcases List.mem_cons.mp hmem with he | hr
    · cases he.symm
      have hd : goWriteDests ((p, b) :: rest) = dest :: goWriteDests rest := by
        simp [goWriteDests, hok]
      rw [hd] at hnd
      have hnm : dest ∉ goWriteDests rest := (List.nodup_cons.mp hnd).1
      simp only [goApplyWrites, hok]
      rw [goApplyWrites_fsGet_notmem hnm, fsGet_fsSet_self]
    · cases hgo : goWriteFileBase64 e.1 e.2 with
      | ok dv =>
        have hd : goWriteDests (e :: rest) = dv.1 :: goWriteDests rest := by
          simp [goWriteDests, hgo]
        rw [hd] at hnd
        simp only [goApplyWrites, hgo]
        exact ih (List.nodup_cons.mp hnd).2 hr _
      | error m =>
        have hd : goWriteDests (e :: rest) = goWriteDests rest := by
          simp [goWriteDests, hgo]
        rw [hd] at hnd
        simp only [goApplyWrites, hgo]
        exact ih hnd hr fs

lemma goApplyDeletes_fsGet {deleted : List String} {dest : String}
    (hdel : ∀ q ∈ deleted, ∀ dd, goResolveWithinAppDir q = some dd →
        (decide (dest = dd) || hasPrefixStr dest (dd ++ "/")) = false)
    (fs : FS) :
    fsGet (goApplyDeletes deleted fs) dest = fsGet fs dest := by
  induction deleted generalizing fs with
  | nil => rfl
  | cons q rest ih =>
    have htail : ∀ r ∈ rest, ∀ dd, goResolveWithinAppDir r = some dd →
        (decide (dest = dd) || hasPrefixStr dest (dd ++ "/")) = false :=
      fun r hr dd h' => hdel r (List.mem_cons_of_mem q hr) dd h'
    cases hgo : goDeletePath q with
    | ok dd =>
      have hres : goResolveWithinAppDir q = some dd := by
        revert hgo
        unfold goDeletePath
        cases goResolveWithinAppDir q with
        | none => intro hgo; cases hgo
        | some a => intro hgo; cases hgo; rfl
      have h := hdel q (List.mem_cons_self q rest) dd hres
      simp only [goApplyDeletes, hgo]
      rw [ih htail, fsGet_fsDeleteAll_ne _ h]
    | error m =>
      simp only [goApplyDeletes, hgo]
      exact ih htail fs

/-- JSON response of the Node sync handler. -/
structure NodeSyncResponse where
  status : Nat
  success : Bool
  message : String
  error : Option String
deriving DecidableEq, Repr

/-- Node sync writes (index.js line 48): every promise is created eagerly,
so each valid entry is applied even when the batch fails overall. -/
def nodeApplyWrites : List (String × String) → FS → FS
  | [], fs => fs
  | e :: rest, fs =>
    match nodeWriteFileBase64 e.1 (some e.2) with
    | .ok dv => nodeApplyWrites rest (fsSet fs dv.1 dv.2)
    | .error _ => nodeApplyWrites rest fs

/-- Node sync deletes (index.js line 49). -/
def nodeApplyDeletes : List String → FS → FS
  | [], fs => fs
  | q :: rest, fs =>
    match nodeDeletePath q with
    | .ok dd => nodeApplyDeletes rest (fsDeleteAll fs dd)
    | .error _ => nodeApplyDeletes rest fs

/-- Write failure messages of a Node batch, in promise-array order. -/
def nodeWriteErrList : List (String × String) → List String
  | [] => []
  | e :: rest =>
    match nodeWriteFileBase64 e.1 (some e.2) with
    | .ok _ => nodeWriteErrList rest
    | .error m => m :: nodeWriteErrList rest

/-- Delete failure messages of a Node batch. -/
def nodeDeleteErrList : List String → List String
  | [] => []
  | q :: rest =>
    match nodeDeletePath q with
    | .ok _ => nodeDeleteErrList rest
    | .error m => m :: nodeDeleteErrList rest

/-- All per-entry failures of a Node batch, writes before deletes (the order
of `[...writePromises, ...deletePromises]`). -/
def nodeSyncErrors (files : List (String × String)) (deleted : List String) :
    List String :=
  nodeWriteErrList files ++ nodeDeleteErrList deleted

/-- Node `POST /sync` (index.js lines 38-95, service shape without prewarm):
`Promise.all` rejects with the *first* failing entry's error, which single
error is what the 500 response carries (`error: String(error)`); with no
failures the handler answers 200. -/
def nodeSyncHandler (files : List (String × String)) (deleted : List String)
    (fs : FS) : NodeSyncResponse × FS :=
  let fs2 := nodeApplyDeletes deleted (nodeApplyWrites files fs)
  match (nodeSyncErrors files deleted).head? with
  | some m =>
    ({ status := 500, success := false, message := "Error syncing files",
       error := some m }, fs2)
  | none =>
    ({ status := 200, success := true, message := "Files synced successfully",
       error := none }, fs2)

/-- Claim C6 (amended to the Go implementation): in a batch where some
entries fail and others succeed (targets pairwise independent, as the spec's
concurrency note assumes), the Go handler answers a single 500 whose error
field carries *all* per-entry failure messages joined with "; ", and every
valid write entry is applied and still present afterwards — nothing is
rolled back. -/
theorem c6_go_sync_aggregates_and_keeps_partial
    (files : List (String × String)) (deleted : List String)
    (installOk pruneOk : Bool) (fs : FS)
    (p b dest : String) (data : List Nat)
    (hmem : (p, b) ∈ files) (hok : goWriteFileBase64 p b = .ok (dest, data))
    (hnd : (goWriteDests files).Nodup)
    (hdel : ∀ q ∈ deleted, ∀ dd, goResolveWithinAppDir q = some dd →
        (decide (dest = dd) || hasPrefixStr dest (dd ++ "/")) = false)
    (herr : goSyncErrors files deleted ≠ []) :
    (goSyncHandler files deleted installOk pruneOk fs).1
      = { status := 500, success := false, message := "",
          error := some (joinWith "; " (goSyncErrors files deleted)) }
    ∧ fsGet (goSyncHandler files deleted installOk pruneOk fs).2 dest
        = some data := by
  constructor
  · simp [goSyncHandler, goSyncResponse, herr]
  · show fsGet (goSyncFs files deleted fs) dest = some data
    rw [goSyncFs, goApplyDeletes_fsGet hdel, goApplyWrites_fsGet_mem hnd hmem hok]

/-- A mixed Go batch: one valid write, one traversal write, one valid
delete. -/
def goMixedFiles : List (String × String) :=
  [("ok.txt", "aGVsbG8="), ("../evil", "aGVsbG8=")]

theorem c6_go_sync_aggregates_and_keeps_partial_witness :
    (goSyncHandler goMixedFiles ["gone.txt"] true true []).1
      = { status := 500, success := false, message := "",
          error := some (joinWith "; " (goSyncErrors goMixedFiles ["gone.txt"])) }
    ∧ fsGet (goSyncHandler goMixedFiles ["gone.txt"] true true []).2
        "/app/applet/ok.txt" = some [104, 101, 108, 108, 111] :=
  c6_go_sync_aggregates_and_keeps_partial goMixedFiles ["gone.txt"] true true []
    "ok.txt" "aGVsbG8=" "/app/applet/ok.txt" [104, 101, 108, 108, 111]
    (by simp [goMixedFiles]) rfl (by decide)
    (by
      intro q hq dd hres
      simp only [List.mem_singleton] at hq
      subst hq
      have h0 : goResolveWithinAppDir "gone.txt" = some "/app/applet/gone.txt" := rfl
      rw [h0] at hres
      cases hres
      decide)
    (by decide)

/-- A Node batch with two traversal failures and one valid write. -/
def nodeMixedFiles : List (String × String) :=
  [("../evil1", "aGVsbG8="), ("../evil2", "aGVsbG8="), ("ok.txt", "aGVsbG8=")]

/-- Counterexample to claim C6 as stated over the whole program: on a batch
with two failing entries, the Node handler's 500 response carries only the
first entry's message — the second failing entry's message appears nowhere
in the response text — so the call does not report the aggregated list of
all per-entry failures (the valid entry is still applied). -/
theorem c6_node_sync_reports_only_first_failure :
    (nodeSyncHandler nodeMixedFiles [] []).1
      = { status := 500, success := false, message := "Error syncing files",
          error := some "Error: Path outside of APP_DIR is not permitted: ../evil1" }
    ∧ nodeWriteFileBase64 "../evil2" (some "aGVsbG8=")
        = .error "Error: Path outside of APP_DIR is not permitted: ../evil2"
    ∧ strContains
        ("Error syncing files Error: Path outside of APP_DIR is not permitted: ../evil1")
        "../evil2" = false
    ∧ fsGet (nodeSyncHandler nodeMixedFiles [] []).2 "/app/applet/ok.txt"
        = some [104, 101, 108, 108, 111] := by
  exact ⟨rfl, rfl, by decide, rfl⟩

/-! ### Log Broadcaster (C7) -/

/-- A log line with its stream classification (main.go `BroadcastMessage`). -/
structure BroadcastMessage where
  text : String
  isStderr : Bool

/-- A registered log-stream client: its buffered channel, as current
contents plus fixed capacity (10 for `/dev/logs` clients). -/
structure Subscriber where
  buffer : List String
  capacity : Nat
deriving DecidableEq, Repr

/-- State owned by the broadcaster loop: the subscriber set (modelled as a
list) and the process's own standard output/error streams. -/
structure BroadcasterState where
  clients : List Subscriber
  stdoutLog : List String
  stderrLog : List String
deriving DecidableEq, Repr

/-- The events consumed by `Broadcaster.run`'s select loop. -/
inductive BroadcastEvent
  | register (c : Subscriber)
  | unregister (i : Nat)
  | message (m : BroadcastMessage)

/-- The non-blocking send of `Broadcaster.run`: deliver when the client's
buffer has free capacity, otherwise drop the message for that client. -/
def trySend (text : String) (c : Subscriber) : Subscriber :=
  if c.buffer.length < c.capacity then { c with buffer := c.buffer ++ [text] }
  else c

/-- One iteration of `Broadcaster.run` (main.go lines 127-162): registration
and unregistration maintain the client set; a message is offered to every
current client independently and is always also mirrored to the process's
stdout or stderr stream. -/
def broadcasterStep : BroadcastEvent → BroadcasterState → BroadcasterState
  | .register c, s => { s with clients := s.clients ++ [c] }
  | .unregister i, s => { s with clients := s.clients.eraseIdx i }
  | .message m, s =>
    { clients := s.clients.map (trySend m.text),
      stdoutLog := if m.isStderr then s.stdoutLog else s.stdoutLog ++ [m.text],
      stderrLog := if m.isStderr then s.stderrLog ++ [m.text] else s.stderrLog }

/-- Claim C7: on submit, each subscriber with free buffer capacity receives
the message and each full subscriber has it dropped, the outcome at one
subscriber depending only on that subscriber's own state; and the line is
mirrored to the process's stdout or stderr stream regardless of the number
of subscribers (the subscriber count is preserved, and the mirror equations
hold for every state, including one with zero subscribers). -/
theorem c7_broadcaster_submit (m : BroadcastMessage) (s t : BroadcasterState)
    (i : Nat) (h : i < s.clients.length)
    (h2 : i < ((broadcasterStep (.message m) s).clients).length)
    (ht : i < t.clients.length)
    (ht2 : i < ((broadcasterStep (.message m) t).clients).length)
    (hsame : t.clients.get ⟨i, ht⟩ = s.clients.get ⟨i, h⟩) :
    ((broadcasterStep (.message m) s).clients).get ⟨i, h2⟩
      = trySend m.text (s.clients.get ⟨i, h⟩)
    ∧ ((broadcasterStep (.message m) t).clients).get ⟨i, ht2⟩
      = ((broadcasterStep (.message m) s).clients).get ⟨i, h2⟩
    ∧ (broadcasterStep (.message m) s).stdoutLog
      = (if m.isStderr then s.stdoutLog else s.stdoutLog ++ [m.text])
    ∧ (broadcasterStep (.message m) s).stderrLog
      = (if m.isStderr then s.stderrLog ++ [m.text] else s.stderrLog)
    ∧ (broadcasterStep (.message m) s).clients.length = s.clients.length := by
  refine ⟨?_, ?_, rfl, rfl, by simp [broadcasterStep]⟩
  · simp [broadcasterStep, List.get_eq_getElem, List.getElem_map]
  · have hsame' : t.clients[i] = s.clients[i] := by
      simpa [List.get_eq_getElem] using hsame
    simp [broadcasterStep, List.get_eq_getElem, List.getElem_map, hsame']

/-- One client with room and one with a full buffer. -/
def bstateDemo : BroadcasterState :=
  { clients := [⟨[], 2⟩, ⟨["a", "b"], 2⟩], stdoutLog := [], stderrLog := [] }

theorem c7_broadcaster_submit_witness :
    ((broadcasterStep (.message ⟨"line", false⟩) bstateDemo).clients).get
        ⟨0, by decide⟩
      = trySend "line" (bstateDemo.clients.get ⟨0, by decide⟩)
    ∧ ((broadcasterStep (.message ⟨"line", false⟩) bstateDemo).clients).get
        ⟨0, by decide⟩
      = ((broadcasterStep (.message ⟨"line", false⟩) bstateDemo).clients).get
        ⟨0, by decide⟩
    ∧ (broadcasterStep (.message ⟨"line", false⟩) bstateDemo).stdoutLog
      = (if (false : Bool) then bstateDemo.stdoutLog
         else bstateDemo.stdoutLog ++ ["line"])
    ∧ (broadcasterStep (.message ⟨"line", false⟩) bstateDemo).stderrLog
      = (if (false : Bool) then bstateDemo.stderrLog ++ ["line"]
         else bstateDemo.stderrLog)
    ∧ (broadcasterStep (.message ⟨"line", false⟩) bstateDemo).clients.length
      = bstateDemo.clients.length :=
  c7_broadcaster_submit ⟨"line", false⟩ bstateDemo bstateDemo 0
    (by decide) (by decide) (by decide) (by decide) rfl

/-! ### Prewarm Engine readiness polling (C8) -/

/-- Readiness classification of a base-URL response status: any 2xx, or 404
(main.go line 519 `(status >= 200 && status < 300) || status == 404`;
index.js line 368 `res.ok || res.status === 404`). -/
def isReadyStatus (status : Nat) : Bool :=
  (200 ≤ status && status < 300) || status == 404

/-- Readiness of one poll attempt: `none` models a connection error or
request timeout, which is caught and treated as not ready. -/
def readyOpt : Option Nat → Bool
  | some st => isReadyStatus st
  | none => false

/-- The polling loop of `waitForServerReady` in both sources: the list holds
the successive poll outcomes available before the deadline; the loop returns
true at the first ready response and false when the window is exhausted. -/
def waitForServerReady : List (Option Nat) → Bool
  | [] => false
  | r :: rest => if readyOpt r then true else waitForServerReady rest

/-- Go `performPrewarming` (main.go lines 468-506): wait for readiness, then
GET every configured path that starts with "/" (others are skipped),
*regardless* of whether the wait timed out.  Result: the readiness outcome
and the list of fetched paths. -/
def goPerformPrewarming (paths : List String) (polls : List (Option Nat)) :
    Bool × List String :=
  (waitForServerReady polls, paths.filter (fun p => hasPrefixStr p "/"))

/-- First-occurrence deduplication, as `Array.from(new Set(paths))`. -/
def dedupFirst : List String → List String :=
  go []
where
  go : List String → List String → List String
    | _, [] => []
    | seen, p :: rest =>
      if seen.any (fun q => decide (q = p)) then go seen rest
      else p :: go (p :: seen) rest

/-- Node `prewarmPaths` (index.js lines 375-384): optionally wait for
readiness (the boolean result is ignored), then fetch each unique path.
Result: the readiness outcome consulted and the list of fetched paths. -/
def nodePrewarmPaths (paths : List String) (polls : List (Option Nat))
    (waitUntilReady : Bool) : Bool × List String :=
  (if waitUntilReady then waitForServerReady polls else true, dedupFirst paths)

/-- Claim C8: the readiness poll classifies a response as ready exactly when
its status is 2xx or 404; polling stops ready at the first such response; the
poll succeeds iff some response in the window is ready (so it fails exactly
on timeout); and both prewarm engines issue their GETs independently of the
poll outcome, in particular after a timeout. -/
theorem c8_prewarm_readiness (st0 st : Nat) (pre post polls : List (Option Nat))
    (hpre : ∀ r ∈ pre, readyOpt r = false) (hst : isReadyStatus st = true)
    (paths : List String) :
    (isReadyStatus st0 = true ↔ ((200 ≤ st0 ∧ st0 < 300) ∨ st0 = 404))
    ∧ waitForServerReady (pre ++ some st :: post) = true
    ∧ (waitForServerReady polls = true ↔ ∃ r ∈ polls, readyOpt r = true)
    ∧ (goPerformPrewarming paths polls).2
        = paths.filter (fun p => hasPrefixStr p "/")
    ∧ (nodePrewarmPaths paths polls true).2 = dedupFirst paths := by
  refine ⟨?_, ?_, ?_, rfl, rfl⟩
  · simp [isReadyStatus]
  · induction pre with
    | nil => simp [waitForServerReady, readyOpt, hst]
    | cons r rest ih =>
      have hr : readyOpt r = false := hpre r (List.mem_cons_self r rest)
      have htail : ∀ x ∈ rest, readyOpt x = false :=
        fun x hx => hpre x (List.mem_cons_of_mem r hx)
      simpa [waitForServerReady, hr] using ih htail
  · induction polls with
    | nil => simp [waitForServerReady]
    | cons r rest ih =>
      cases hr : readyOpt r with
      | true => simp [waitForServerReady, hr]
      | false => simp [waitForServerReady, hr, ih]

theorem c8_prewarm_readiness_witness :
    (isReadyStatus 204 = true ↔ ((200 ≤ 204 ∧ 204 < 300) ∨ 204 = 404))
    ∧ waitForServerReady ([none, some 500] ++ some 404 :: []) = true
    ∧ (waitForServerReady [some 503] = true
        ↔ ∃ r ∈ [some 503], readyOpt r = true)
    ∧ (goPerformPrewarming ["/", "/api/hello", "nope"] [some 503]).2
        = (["/", "/api/hello", "nope"] : List String).filter
            (fun p => hasPrefixStr p "/")
    ∧ (nodePrewarmPaths ["/", "/api/hello", "nope"] [some 503] true).2
        = dedupFirst ["/", "/api/hello", "nope"] :=
  c8_prewarm_readiness 204 404 [none, some 500] [] [some 503]
    (by decide) (by decide) ["/", "/api/hello", "nope"]

/-! ### Dev Operation Lock (C9) -/

/-- Where one caller of a dev operation stands. -/
inductive LPhase
  | idle
  | waiting
  | critical
  | done
deriving DecidableEq, Repr

/-- State of the Go `devOpMutex` discipline: the current holder, and the
phase of each caller (callers are named by naturals). -/
structure LockSt where
  lock : Option Nat
  phase : Nat → LPhase

/-- Transitions of the mutex discipline in `handleDevOperation` (main.go
lines 528-531): a caller arrives and begins waiting on `devOpMutex.Lock()`;
a waiting caller acquires the free mutex and enters its start/stop/restart
sequence; the holder releases on return (`defer devOpMutex.Unlock()`).
There is no transition that turns a waiting caller away. -/
inductive LockStep : LockSt → LockSt → Prop
  | arrive (s : LockSt) (i : Nat) (h : s.phase i = .idle) :
      LockStep s ⟨s.lock, Function.update s.phase i .waiting⟩
  | acquire (s : LockSt) (i : Nat) (h : s.phase i = .waiting)
      (hfree : s.lock = none) :
      LockStep s ⟨some i, Function.update s.phase i .critical⟩
  | release (s : LockSt) (i : Nat) (h : s.phase i = .critical) :
      LockStep s ⟨none, Function.update s.phase i .done⟩

/-- Claim C9 (amended): the Go mutex serializes start/stop/restart — after
any step from a state where every caller in its critical sequence holds the
lock, a caller in its critical sequence still holds the lock, hence at most
one executes at a time; a waiting caller is never turned away (it stays
waiting or enters its sequence); from a state with a holder `a` and a waiter
`b`, two steps (release then acquire) bring `b` into its sequence.  The Node
implementation instead *rejects* a caller that arrives while another dev
operation is in progress: `POST /dev/start` answers the 409
operation-in-progress conflict and spawns nothing. -/
theorem c9_dev_operation_lock (s s' : LockSt) (hstep : LockStep s s')
    (hinv : ∀ t, s.phase t = .critical → s.lock = some t)
    (i j : Nat) (hi : s'.phase i = .critical) (hj : s'.phase j = .critical)
    (w : Nat) (hw : s.phase w = .waiting)
    (s0 : LockSt) (a b : Nat) (hA : s0.phase a = .critical)
    (hB : s0.phase b = .waiting) (hba : b ≠ a)
    (nenv : NodeEnv) (h1 : nenv.pidFile = none)
    (h2 : nenv.devOpInProgress = true) :
    s'.lock = some i ∧ i = j
    ∧ (s'.phase w = .waiting ∨ s'.phase w = .critical)
    ∧ (∃ s1 s2, LockStep s0 s1 ∧ LockStep s1 s2 ∧ s2.phase b = .critical)
    ∧ nodeDevStart nenv = (.opInProgress, none, nenv.pidFile) := by
  have hlk : s'.lock = some i := by
    cases hstep with
    | arrive k hk =>
      by_cases hik : i = k
      · subst hik
        rw [show (⟨s.lock, Function.update s.phase i .waiting⟩ : LockSt).phase i
              = .waiting from by simp [Function.update]] at hi
        cases hi
      · have : s.phase i = .critical := by
          rw [show (⟨s.lock, Function.update s.phase k .waiting⟩ : LockSt).phase i
                = s.phase i from by simp [Function.update, hik]] at hi
          exact hi
        exact hinv i this
    | acquire k hk hfree =>
      by_cases hik : i = k
      · subst hik; rfl
      · have : s.phase i = .critical := by
          rw [show (⟨some k, Function.update s.phase k .critical⟩ : LockSt).phase i
                = s.phase i from by simp [Function.update, hik]] at hi
          exact hi
        rw [hinv i this] at hfree
        cases hfree
    | release k hk =>
      by_cases hik : i = k
      · subst hik
        rw [show (⟨none, Function.update s.phase i .done⟩ : LockSt).phase i
              = .done from by simp [Function.update]] at hi
        cases hi
      · have hic : s.phase i = .critical := by
          rw [show (⟨none, Function.update s.phase k .done⟩ : LockSt).phase i
                = s.phase i from by simp [Function.update, hik]] at hi
          exact hi
        have h1' := hinv i hic
        have h2' := hinv k hk
        rw [h1'] at h2'
        exact absurd (Option.some.inj h2') hik
  have hlkj : s'.lock = some j := by
    cases hstep with
    | arrive k hk =>
      by_cases hjk : j = k
      · subst hjk
        rw [show (⟨s.lock, Function.update s.phase j .waiting⟩ : LockSt).phase j
              = .waiting from by simp [Function.update]] at hj
        cases hj
      · have : s.phase j = .critical := by
          rw [show (⟨s.lock, Function.update s.phase k .waiting⟩ : LockSt).phase j
                = s.phase j from by simp [Function.update, hjk]] at hj
          exact hj
        exact hinv j this
    | acquire k hk hfree =>
      by_cases hjk : j = k
      · subst hjk; rfl
      · have : s.phase j = .critical := by
          rw [show (⟨some k, Function.update s.phase k .critical⟩ : LockSt).phase j
                = s.phase j from by simp [Function.update, hjk]] at hj
          exact hj
        rw [hinv j this] at hfree
        cases hfree
    | release k hk =>
      by_cases hjk : j = k
      · subst hjk
        rw [show (⟨none, Function.update s.phase j .done⟩ : LockSt).phase j
              = .done from by simp [Function.update]] at hj
        cases hj
      · have hjc : s.phase j = .critical := by
          rw [show (⟨none, Function.update s.phase k .done⟩ : LockSt).phase j
                = s.phase j from by simp [Function.update, hjk]] at hj
          exact hj
        have h1' := hinv j hjc
        have h2' := hinv k hk
        rw [h1'] at h2'
        exact absurd (Option.some.inj h2') hjk
  refine ⟨hlk, ?_, ?_, ?_, ?_⟩
  · rw [hlk] at hlkj
    exact Option.some.inj hlkj
  · cases hstep with
    | arrive k hk =>
      by_cases hwk : w = k
      · subst hwk; rw [hw] at hk; cases hk
      · left; simp [Function.update, hwk, hw]
    | acquire k hk hfree =>
      by_cases hwk : w = k
      · subst hwk; right; simp [Function.update]
      · left; simp [Function.update, hwk, hw]
    | release k hk =>
      by_cases hwk : w = k
      · subst hwk; rw [hw] at hk; cases hk
      · left; simp [Function.update, hwk, hw]
  · refine ⟨⟨none, Function.update s0.phase a .done⟩,
      ⟨some b, Function.update (Function.update s0.phase a .done) b .critical⟩,
      LockStep.release s0 a hA, ?_, by simp [Function.update]⟩
    exact LockStep.acquire _ b (by simp [Function.update, hba, hB]) rfl
  · simp [nodeDevStart, nodeRunningCheck, nodeStartRest, h1, h2]

/-- Two callers waiting on a free mutex. -/
def lockDemoPhases : Nat → LPhase :=
  fun t => if t = 0 then .waiting else if t = 1 then .waiting else .idle

def lockDemo : LockSt := ⟨none, lockDemoPhases⟩

def lockDemoAfter : LockSt :=
  ⟨some 0, Function.update lockDemo.phase 0 .critical⟩

/-- Caller 5 holding the mutex while caller 6 waits. -/
def lockDemo2Phases : Nat → LPhase :=
  fun t => if t = 5 then .critical else if t = 6 then .waiting else .idle

def lockDemo2 : LockSt := ⟨some 5, lockDemo2Phases⟩

/-- A Node start request arriving while another dev operation is in
progress. -/
def nenvOpInProgress : NodeEnv :=
  { pidFile := none, alive := fun _ => false, devOpInProgress := true,
    portBound := false, spawnFails := false, spawnPid := 42,
    pidWriteFails := false }

theorem c9_dev_operation_lock_witness :
    lockDemoAfter.lock = some 0 ∧ 0 = 0
    ∧ (lockDemoAfter.phase 1 = .waiting ∨ lockDemoAfter.phase 1 = .critical)
    ∧ (∃ s1 s2, LockStep lockDemo2 s1 ∧ LockStep s1 s2
        ∧ s2.phase 6 = .critical)
    ∧ nodeDevStart nenvOpInProgress = (.opInProgress, none, nenvOpInProgress.pidFile) :=
  c9_dev_operation_lock lockDemo lockDemoAfter
    (LockStep.acquire lockDemo 0 rfl rfl)
    (by
      intro t ht
      by_cases h0 : t = 0
      · subst h0; simp [lockDemo, lockDemoPhases] at ht
      · by_cases hone : t = 1
        · subst hone; simp [lockDemo, lockDemoPhases] at ht
        · simp [lockDemo, lockDemoPhases, h0, hone] at ht)
    0 0 (by simp [lockDemoAfter, Function.update])
    (by simp [lockDemoAfter, Function.update])
    1 rfl lockDemo2 5 6 rfl rfl (by decide) nenvOpInProgress rfl rfl

/-- Counterexample to claim C9 as stated over the whole program: the Node
implementation does not make a concurrent caller wait — a start request
arriving while another dev operation is in progress is rejected with the 409
operation-in-progress conflict (a rejection beyond the already-running and
port-in-use policy checks), and no child is spawned. -/
theorem c9_node_rejects_concurrent_caller :
    nenvOpInProgress.devOpInProgress = true
    ∧ nodeDevStart nenvOpInProgress = (.opInProgress, none, none) := by
  exact ⟨rfl, rfl⟩
